import Mathlib

/-!
Shallow embedding of the Algolia index monitor (src/main.rs) and proofs of
the specification's claims about its core logic: the record-count delta
evaluator, the log fetch & filter pipeline, and the watermark tracker.

JSON responses are modelled by an inductive `Json` type mirroring
serde_json's `Value` (numbers as integers, which covers every shape the
claims exercise).  Rust panics (a failed `unwrap`) are modelled by `none`:
a function that can panic returns an `Option`.
-/

namespace AlgoliaMonitor

/-- Kernel-reducible decidability of string comparison (core's list-based
`String.decLt`), so that witnesses evaluate by `decide`.  The order itself
is unchanged: lexicographic on the character data, the embedding of Rust's
lexicographic `String` ordering used by `is_newer`. -/
instance (priority := 2000) decLtStr (a b : String) : Decidable (a < b) :=
  decidable_of_iff (a.toList < b.toList) String.lt_iff_toList_lt.symm

/-- Kernel-reducible decidability of `a ≤ b` on strings, through the
character lists. -/
instance (priority := 2000) decLeStr (a b : String) : Decidable (a ≤ b) :=
  decidable_of_iff (a.toList ≤ b.toList) String.le_iff_toList_le.symm

/-- JSON values as seen by serde_json.  Object member order is kept, as in
the source's responses; numbers are modelled as integers. -/
inductive Json where
  | null : Json
  | bool : Bool → Json
  | num : Int → Json
  | str : String → Json
  | arr : List Json → Json
  | obj : List (String × Json) → Json

/-- Model of `Value::get(key)`: `Some` only when the value is an object
containing the key. -/
def Json.find (j : Json) (key : String) : Option Json :=
  match j with
  | Json.obj kvs => kvs.lookup key
  | _ => none

/-- Model of serde_json's `json[key]` indexing: the member when present,
`Null` otherwise (also for non-objects). -/
def Json.index (j : Json) (key : String) : Json :=
  (j.find key).getD Json.null

/-- Model of `Value::as_str`. -/
def Json.as_str : Json → Option String
  | Json.str s => some s
  | _ => none

/-- Model of `Value::as_u64`: the number when it is a non-negative integer
fitting in 64 bits. -/
def Json.as_u64 : Json → Option Nat
  | Json.num n => if 0 ≤ n ∧ n < 2 ^ 64 then some n.toNat else none
  | _ => none

/-- Whether the value is a JSON array (`Value::Array`). -/
def Json.is_array : Json → Bool
  | Json.arr _ => true
  | _ => false

/-- Escape of one character inside a JSON string literal (model of
serde_json's string escaping, restricted to the quote and backslash). -/
def escapeChar (c : Char) : String :=
  if c = '"' then "\\\"" else if c = '\\' then "\\\\" else String.singleton c

/-- Rendering of a string as a JSON string literal. -/
def renderString (s : String) : String :=
  "\"" ++ String.join (s.toList.map escapeChar) ++ "\""

mutual

/-- Model of `serde_json::to_string` on a `Value` (which never fails). -/
def Json.render : Json → String
  | Json.null => "null"
  | Json.bool b => if b then "true" else "false"
  | Json.num n => toString n
  | Json.str s => renderString s
  | Json.arr xs => "[" ++ Json.renderList xs ++ "]"
  | Json.obj kvs => "\x7b" ++ Json.renderObj kvs ++ "\x7d"

/-- Comma-separated rendering of array elements. -/
def Json.renderList : List Json → String
  | [] => ""
  | [x] => Json.render x
  | x :: xs => Json.render x ++ "," ++ Json.renderList xs

/-- Comma-separated rendering of object members. -/
def Json.renderObj : List (String × Json) → String
  | [] => ""
  | [(k, v)] => renderString k ++ ":" ++ Json.render v
  | (k, v) :: kvs => renderString k ++ ":" ++ Json.render v ++ "," ++ Json.renderObj kvs

end

/-- A fetched log entry, as in `struct AlgoliaLog`: its timestamp and the
full serialized entry kept verbatim for output. -/
structure AlgoliaLog where
  timestamp : String
  message : String
deriving DecidableEq

/-- Model of `AlgoliaLog::from_json`.  The source unwraps
`json["timestamp"].as_str()`, so a missing or non-string timestamp panics:
modelled by `none`.  (`to_string` on a `Value` never fails.) -/
def AlgoliaLog.from_json (json : Json) : Option AlgoliaLog :=
  match (json.index "timestamp").as_str with
  | some t => some { timestamp := t, message := json.render }
  | none => none

/-- Model of `AlgoliaLog::is_newer`: plain string comparison
`self.timestamp.gt(timestamp)`. -/
def AlgoliaLog.is_newer (log : AlgoliaLog) (timestamp : String) : Bool :=
  decide (timestamp < log.timestamp)

/-- Model of `AlgoliaClient::total_records`, applied to the parsed JSON
response body (the transport is an external collaborator):
`response.get("nbHits").map(|v| v.as_u64().unwrap_or(0)).unwrap_or(0)`. -/
def AlgoliaClient.total_records (response : Json) : Nat :=
  ((response.find "nbHits").map (fun v => (v.as_u64).getD 0)).getD 0

/-- Model of `logs.iter().map(AlgoliaLog::from_json).collect()`: a panic in
`from_json` aborts the whole collection (`none`). -/
def parse_logs : List Json → Option (List AlgoliaLog)
  | [] => some []
  | j :: rest =>
    match AlgoliaLog.from_json j, parse_logs rest with
    | some log, some logs => some (log :: logs)
    | _, _ => none

/-- Model of `AlgoliaClient::get_logs`, applied to the parsed JSON response
body: a missing or non-array `logs` member yields the empty batch. -/
def AlgoliaClient.get_logs (response : Json) : Option (List AlgoliaLog) :=
  match response.find "logs" with
  | some (Json.arr logs) => parse_logs logs
  | _ => some []

/-- Model of the second loop of `print_algolia_logs`: fold the watermark
forward, replacing it whenever the current log's timestamp is newer than
the watermark seen so far. -/
def advance (last_log_timestamp : String) (logs : List AlgoliaLog) : String :=
  logs.foldl
    (fun wm log => if log.is_newer wm then log.timestamp else wm)
    last_log_timestamp

/-- Model of `print_algolia_logs` on an already-parsed batch: the emitted
stdout lines (first loop: each log newer than the starting watermark prints
its message) paired with the final watermark (second loop: `advance`). -/
def print_algolia_logs (logs : List AlgoliaLog) (last_log_timestamp : String) :
    List String × String :=
  (logs.filterMap (fun log =>
      if log.is_newer last_log_timestamp then some log.message else none),
   advance last_log_timestamp logs)

/-- Model of `print_algolia_logs` from the raw JSON log-fetch response:
parsing may panic (`none`); otherwise the pure pipeline runs. -/
def print_algolia_logs_response (response : Json) (last_log_timestamp : String) :
    Option (List String × String) :=
  (AlgoliaClient.get_logs response).map
    (fun logs => print_algolia_logs logs last_log_timestamp)

/-- Model of Rust's `u64 as i64` cast: two's-complement wrap. -/
def u64_as_i64 (n : Nat) : Int :=
  if n < 2 ^ 63 then (n : Int) else (n : Int) - 2 ^ 64

/-- Model of i64 subtraction overflow wrap (release-profile semantics). -/
def i64_wrap (z : Int) : Int :=
  (z + 2 ^ 63) % 2 ^ 64 - 2 ^ 63

/-- Model of `let changed_records = total_records as i64 - expected_records
as i64;` in `print_logs_when_records_change`. -/
def changed_records (total_records expected_records : Nat) : Int :=
  i64_wrap (u64_as_i64 total_records - u64_as_i64 expected_records)

/-- The delta evaluator's decision, verbatim from the source condition
`(delta < 0 && changed_records < delta) || (delta > 0 && changed_records > delta)`. -/
def trigger (delta changed : Int) : Bool :=
  (decide (delta < 0) && decide (changed < delta)) ||
  (decide (delta > 0) && decide (changed > delta))

/-- Model of `print_logs_when_records_change`, applied to the two parsed
JSON response bodies (record-count query and log fetch): run the pipeline
only when the delta evaluator triggers, else change nothing and emit
nothing. -/
def print_logs_when_records_change (total_response logs_response : Json)
    (expected_records : Nat) (delta : Int) (last_log_timestamp : String) :
    Option (List String × String) :=
  let total := AlgoliaClient.total_records total_response
  let changed := changed_records total expected_records
  if trigger delta changed then
    print_algolia_logs_response logs_response last_log_timestamp
  else
    some ([], last_log_timestamp)

/-- Model of `print_all_logs` (the `--all-logs` mode): run the pipeline
unconditionally. -/
def print_all_logs (logs_response : Json) (last_log_timestamp : String) :
    Option (List String × String) :=
  print_algolia_logs_response logs_response last_log_timestamp

/-- The watermark after a sequence of batches processed in order by the
pure pipeline. -/
def process_batches (last_log_timestamp : String)
    (batches : List (List AlgoliaLog)) : String :=
  batches.foldl (fun wm batch => (print_algolia_logs batch wm).2)
    last_log_timestamp

/-! ### Helper lemmas about the watermark fold -/

theorem is_newer_iff (log : AlgoliaLog) (wm : String) :
    log.is_newer wm = true ↔ wm < log.timestamp := by
  simp [AlgoliaLog.is_newer]

theorem advance_nil (wm : String) : advance wm [] = wm := rfl

theorem advance_cons (wm : String) (l : AlgoliaLog) (ls : List AlgoliaLog) :
    advance wm (l :: ls) = advance (if l.is_newer wm then l.timestamp else wm) ls := rfl

theorem le_advance (wm : String) (logs : List AlgoliaLog) : wm ≤ advance wm logs := by
  induction logs generalizing wm with
  | nil => exact le_refl wm
  | cons l ls ih =>
    rw [advance_cons]
    refine le_trans ?_ (ih _)
    by_cases h : l.is_newer wm
    · rw [if_pos h]
      exact le_of_lt ((is_newer_iff l wm).mp h)
    · rw [if_neg h]

theorem advance_mem (wm : String) (logs : List AlgoliaLog) :
    advance wm logs = wm ∨ advance wm logs ∈ logs.map AlgoliaLog.timestamp := by
  induction logs generalizing wm with
  | nil => exact Or.inl rfl
  | cons l ls ih =>
    rw [advance_cons]
    by_cases h : l.is_newer wm
    · rw [if_pos h]
      rcases ih l.timestamp with h1 | h1
      · exact Or.inr (by rw [h1]; exact List.mem_cons_self _ _)
      · exact Or.inr (List.mem_cons_of_mem _ h1)
    · rw [if_neg h]
      rcases ih wm with h1 | h1
      · exact Or.inl h1
      · exact Or.inr (List.mem_cons_of_mem _ h1)

theorem advance_ub (wm : String) (logs : List AlgoliaLog) :
    ∀ l ∈ logs, l.timestamp ≤ advance wm logs := by
  induction logs generalizing wm with
  | nil => intro l hl; cases hl
  | cons x ls ih =>
    intro l hl
    rw [advance_cons]
    rcases List.mem_cons.mp hl with h1 | h1
    · subst h1
      refine le_trans ?_ (le_advance _ ls)
      by_cases h : l.is_newer wm
      · rw [if_pos h]
      · rw [if_neg h]
        exact le_of_not_lt (fun hlt => h ((is_newer_iff l wm).mpr hlt))
    · exact ih _ l h1

theorem advance_of_all_le (wm : String) (logs : List AlgoliaLog)
    (h : ∀ l ∈ logs, l.timestamp ≤ wm) : advance wm logs = wm := by
  induction logs with
  | nil => rfl
  | cons l ls ih =>
    rw [advance_cons, if_neg, ih (fun x hx => h x (List.mem_cons_of_mem _ hx))]
    intro hn
    exact absurd ((is_newer_iff l wm).mp hn)
      (not_lt_of_le (h l (List.mem_cons_self _ _)))

theorem advance_of_perm (wm : String) (logs₁ logs₂ : List AlgoliaLog)
    (h : List.Perm logs₁ logs₂) : advance wm logs₁ = advance wm logs₂ := by
  have key : ∀ a b : List AlgoliaLog, List.Perm a b → advance wm a ≤ advance wm b := by
    intro a b hab
    rcases advance_mem wm a with h1 | h1
    · rw [h1]; exact le_advance wm b
    · rcases List.mem_map.mp h1 with ⟨l, hl, hts⟩
      rw [← hts]
      exact advance_ub wm b l (hab.mem_iff.mp hl)
  exact le_antisymm (key _ _ h) (key _ _ h.symm)

theorem filterMap_ite_eq_map_filter {β : Type} (p : AlgoliaLog → Bool)
    (f : AlgoliaLog → β) (logs : List AlgoliaLog) :
    logs.filterMap (fun l => if p l then some (f l) else none) =
      (logs.filter p).map f := by
  induction logs with
  | nil => rfl
  | cons l ls ih =>
    by_cases h : p l
    · simp [List.filterMap_cons, List.filter_cons, h, ih]
    · simp [List.filterMap_cons, List.filter_cons, h, ih]

/-! ### Claims about the fetch & filter pipeline -/

/-- Claim C2: for every batch and starting watermark, after the pipeline
runs the watermark equals the string-maximum timestamp among the retained
records (those strictly newer than the starting watermark), independently
of the batch order; if no records were retained it is unchanged. -/
theorem c2_watermark_is_string_max (logs : List AlgoliaLog) (wm : String) :
    (logs.filter (fun l => l.is_newer wm) = [] →
      (print_algolia_logs logs wm).2 = wm) ∧
    (logs.filter (fun l => l.is_newer wm) ≠ [] →
      (print_algolia_logs logs wm).2 ∈
        (logs.filter (fun l => l.is_newer wm)).map AlgoliaLog.timestamp ∧
      ∀ t ∈ (logs.filter (fun l => l.is_newer wm)).map AlgoliaLog.timestamp,
        t ≤ (print_algolia_logs logs wm).2) ∧
    ∀ logs₂, List.Perm logs logs₂ →
      (print_algolia_logs logs₂ wm).2 = (print_algolia_logs logs wm).2 := by
  refine ⟨?_, ?_, ?_⟩
  · intro hnil
    have hall : ∀ l ∈ logs, l.timestamp ≤ wm := by
      intro l hl
      have := (List.filter_eq_nil_iff.mp hnil) l hl
      exact le_of_not_lt (fun hlt => this ((is_newer_iff l wm).mpr hlt))
    exact advance_of_all_le wm logs hall
  · intro hne
    obtain ⟨l, hl⟩ := List.exists_mem_of_ne_nil _ hne
    obtain ⟨hmem, hnew⟩ := List.mem_filter.mp hl
    have hwlt : wm < advance wm logs :=
      lt_of_lt_of_le ((is_newer_iff l wm).mp hnew) (advance_ub wm logs l hmem)
    constructor
    · rcases advance_mem wm logs with h1 | h1
      · exact absurd h1 (ne_of_gt hwlt)
      · obtain ⟨l0, hl0, hts⟩ := List.mem_map.mp h1
        refine List.mem_map.mpr ⟨l0, List.mem_filter.mpr ⟨hl0, ?_⟩, hts⟩
        exact (is_newer_iff l0 wm).mpr (by rw [hts]; exact hwlt)
    · intro t ht
      obtain ⟨l0, hl0, hts⟩ := List.mem_map.mp ht
      rw [← hts]
      exact advance_ub wm logs l0 (List.mem_of_mem_filter hl0)
  · intro logs₂ hperm
    exact advance_of_perm wm logs₂ logs hperm.symm

/-- Concrete instance of C2: a batch listing the newer record first still
advances the watermark to the maximum retained timestamp, and permuting
the batch gives the same watermark. -/
theorem c2_watermark_is_string_max_witness :
    (print_algolia_logs
        [⟨"2024-05-02T00:00:00.000Z", "newer"⟩, ⟨"2024-05-01T00:00:00.000Z", "older"⟩]
        "2024-04-30T00:00:00.000Z").2 ∈
      (List.filter (fun l => l.is_newer "2024-04-30T00:00:00.000Z")
        [⟨"2024-05-02T00:00:00.000Z", "newer"⟩,
          ⟨"2024-05-01T00:00:00.000Z", "older"⟩]).map AlgoliaLog.timestamp ∧
    (print_algolia_logs
        [⟨"2024-05-01T00:00:00.000Z", "older"⟩, ⟨"2024-05-02T00:00:00.000Z", "newer"⟩]
        "2024-04-30T00:00:00.000Z").2 =
      (print_algolia_logs
        [⟨"2024-05-02T00:00:00.000Z", "newer"⟩, ⟨"2024-05-01T00:00:00.000Z", "older"⟩]
        "2024-04-30T00:00:00.000Z").2 :=
  ⟨((c2_watermark_is_string_max
      [⟨"2024-05-02T00:00:00.000Z", "newer"⟩, ⟨"2024-05-01T00:00:00.000Z", "older"⟩]
      "2024-04-30T00:00:00.000Z").2.1 (by decide)).1,
   (c2_watermark_is_string_max
      [⟨"2024-05-02T00:00:00.000Z", "newer"⟩, ⟨"2024-05-01T00:00:00.000Z", "older"⟩]
      "2024-04-30T00:00:00.000Z").2.2
      [⟨"2024-05-01T00:00:00.000Z", "older"⟩, ⟨"2024-05-02T00:00:00.000Z", "newer"⟩]
      (by decide)⟩

/-- Claim C4: re-running the pipeline on the identical batch, starting
from the watermark produced by the first run, emits zero records and
leaves the watermark unchanged. -/
theorem c4_second_run_is_idempotent (logs : List AlgoliaLog) (wm : String) :
    print_algolia_logs logs (print_algolia_logs logs wm).2 =
      ([], (print_algolia_logs logs wm).2) := by
  have hub : ∀ l ∈ logs, l.timestamp ≤ advance wm logs := advance_ub wm logs
  have hnone : ∀ l ∈ logs, l.is_newer (advance wm logs) = false := by
    intro l hl
    rcases Bool.eq_false_or_eq_true (l.is_newer (advance wm logs)) with h | h
    · exact absurd ((is_newer_iff _ _).mp h) (not_lt_of_le (hub l hl))
    · exact h
  unfold print_algolia_logs
  refine Prod.ext ?_ ?_
  · refine List.filterMap_eq_nil_iff.mpr (fun l hl => ?_)
    rw [hnone l hl]
    rfl
  · exact advance_of_all_le _ logs hub

/-- Claim C5: the watermark is monotonically non-decreasing across a
sequence of batches: processing one more batch never moves it backwards in
string order. -/
theorem c5_watermark_monotone (batches : List (List AlgoliaLog))
    (batch : List AlgoliaLog) (wm : String) :
    process_batches wm batches ≤ process_batches wm (batches ++ [batch]) := by
  unfold process_batches
  rw [List.foldl_append]
  exact le_advance _ batch

/-- Claim C8: the pipeline emits exactly the records whose timestamp sorts
strictly after the pre-cycle watermark, each as its verbatim payload
string, in the batch's relative fetch order; a record whose timestamp
equals the watermark is not emitted. -/
theorem c8_emits_strictly_newer_in_fetch_order (logs : List AlgoliaLog) (wm : String) :
    (print_algolia_logs logs wm).1 =
      (logs.filter (fun l => l.is_newer wm)).map AlgoliaLog.message ∧
    (∀ l : AlgoliaLog, l.is_newer wm = true ↔ wm < l.timestamp) ∧
    (∀ l : AlgoliaLog, l.timestamp = wm → l.is_newer wm = false) := by
  refine ⟨?_, fun l => is_newer_iff l wm, ?_⟩
  · unfold print_algolia_logs
    exact filterMap_ite_eq_map_filter _ _ logs
  · intro l hl
    rcases Bool.eq_false_or_eq_true (l.is_newer wm) with h | h
    · have := (is_newer_iff l wm).mp h
      rw [hl] at this
      exact absurd this (lt_irrefl wm)
    · exact h

/-- Concrete instance of C8: a record stamped exactly at the watermark is
not considered newer and is not emitted. -/
theorem c8_emits_strictly_newer_in_fetch_order_witness :
    AlgoliaLog.is_newer ⟨"2024-05-01T00:00:00.000Z", "at-watermark"⟩
      "2024-05-01T00:00:00.000Z" = false :=
  (c8_emits_strictly_newer_in_fetch_order [] "2024-05-01T00:00:00.000Z").2.2
    ⟨"2024-05-01T00:00:00.000Z", "at-watermark"⟩ rfl

/-! ### Claims about the delta evaluator and the poll-cycle gating -/

theorem i64_wrap_eq_self (z : Int) (hlo : -(2 ^ 63) ≤ z) (hhi : z < 2 ^ 63) :
    i64_wrap z = z := by
  unfold i64_wrap
  have h0 : (0 : Int) ≤ z + 2 ^ 63 := by omega
  have h1 : z + 2 ^ 63 < 2 ^ 64 := by omega
  rw [Int.emod_eq_of_lt h0 h1]
  omega

theorem changed_records_eq_sub (total expected : Nat)
    (ht : total < 2 ^ 63) (he : expected < 2 ^ 63) :
    changed_records total expected = (total : Int) - (expected : Int) := by
  unfold changed_records u64_as_i64
  rw [if_pos ht, if_pos he]
  have ht' : (total : Int) < 2 ^ 63 := by exact_mod_cast ht
  have he' : (expected : Int) < 2 ^ 63 := by exact_mod_cast he
  have ht0 : (0 : Int) ≤ (total : Int) := Int.ofNat_nonneg total
  have he0 : (0 : Int) ≤ (expected : Int) := Int.ofNat_nonneg expected
  exact i64_wrap_eq_self _ (by omega) (by omega)

/-- Claim C1 (amended): for counts below 2^63 — where the source's
`u64 as i64` casts and the i64 subtraction are exact — the delta evaluator
computes `delta = current_count - expected_count` and triggers exactly when
`(threshold < 0 and delta < threshold) or (threshold > 0 and
delta > threshold)`.  The unamended claim fails at counts of 2^63 and
above, where the cast wraps. -/
theorem c1_delta_evaluator (total expected : Nat) (delta : Int)
    (ht : total < 2 ^ 63) (he : expected < 2 ^ 63) :
    trigger delta (changed_records total expected) = true ↔
      (delta < 0 ∧ (total : Int) - (expected : Int) < delta) ∨
      (delta > 0 ∧ (total : Int) - (expected : Int) > delta) := by
  rw [changed_records_eq_sub total expected ht he]
  simp [trigger]

/-- Concrete instance of C1: the spec's own table rows, expected=100,
current=50, threshold=-10 triggers; expected=100, current=105,
threshold=-10 does not. -/
theorem c1_delta_evaluator_witness :
    trigger (-10) (changed_records 50 100) = true ∧
    trigger (-10) (changed_records 105 100) = false :=
  ⟨(c1_delta_evaluator 50 100 (-10) (by decide) (by decide)).mpr (by decide),
   by
    rcases Bool.eq_false_or_eq_true (trigger (-10) (changed_records 105 100)) with h | h
    · exact absurd ((c1_delta_evaluator 105 100 (-10) (by decide) (by decide)).mp h)
        (by decide)
    · exact h⟩

/-- Counterexample to claim C1 as stated: at current_count = 2^63 and
expected_count = 0 the true delta 2^63 exceeds a threshold of 1000, so the
claim demands a trigger, but the source's `u64 as i64` cast wraps the
count to -2^63 and the evaluator stays silent. -/
theorem c1_counterexample :
    ((2 ^ 63 : Int) - (0 : Int) > 1000) ∧
    trigger 1000 (changed_records (2 ^ 63) 0) = false ∧
    print_logs_when_records_change (Json.obj [("nbHits", Json.num (2 ^ 63))])
      (Json.obj []) 0 1000 "0000-00-00T00:00:00.000Z" =
      some ([], "0000-00-00T00:00:00.000Z") := by
  refine ⟨by decide, by decide, ?_⟩
  simp only [print_logs_when_records_change]
  rw [if_neg]
  intro hc
  exact absurd hc (by decide)

/-- Claim C10: with a threshold of exactly 0 the delta evaluator never
triggers, whatever the current and expected counts; in change-triggered
mode nothing is fetched or emitted and the watermark is unchanged. -/
theorem c10_zero_threshold_never_triggers (total expected : Nat)
    (total_response logs_response : Json) (expected₂ : Nat) (wm : String) :
    trigger 0 (changed_records total expected) = false ∧
    print_logs_when_records_change total_response logs_response expected₂ 0 wm =
      some ([], wm) := by
  have hz : ∀ c : Int, trigger 0 c = false := by
    intro c
    simp [trigger]
  exact ⟨hz _, by simp [print_logs_when_records_change, hz]⟩

/-- Claim C9: in change-triggered mode the pipeline runs only when the
delta evaluator triggers — with no trigger nothing is emitted, the
watermark is unchanged, and the log-fetch response is never consulted
(same result whatever it would have been); in always mode the pipeline
runs unconditionally. -/
theorem c9_pipeline_gating (total_response logsA logsB : Json)
    (expected : Nat) (delta : Int) (wm : String) :
    (trigger delta
        (changed_records (AlgoliaClient.total_records total_response) expected) = false →
      print_logs_when_records_change total_response logsA expected delta wm =
        some ([], wm) ∧
      print_logs_when_records_change total_response logsA expected delta wm =
        print_logs_when_records_change total_response logsB expected delta wm) ∧
    (trigger delta
        (changed_records (AlgoliaClient.total_records total_response) expected) = true →
      print_logs_when_records_change total_response logsA expected delta wm =
        print_algolia_logs_response logsA wm) ∧
    print_all_logs logsA wm = print_algolia_logs_response logsA wm := by
  refine ⟨fun h => ⟨?_, ?_⟩, fun h => ?_, rfl⟩
  · simp [print_logs_when_records_change, h]
  · simp [print_logs_when_records_change, h]
  · simp [print_logs_when_records_change, h]

/-- Concrete instance of C9: with the count on baseline (delta 0, threshold
-10) the change-triggered cycle leaves everything untouched. -/
theorem c9_pipeline_gating_witness :
    print_logs_when_records_change (Json.obj [("nbHits", Json.num 100)])
      (Json.obj [("logs", Json.num 1)]) 100 (-10) "2024-05-01T00:00:00.000Z" =
      some ([], "2024-05-01T00:00:00.000Z") :=
  ((c9_pipeline_gating (Json.obj [("nbHits", Json.num 100)])
      (Json.obj [("logs", Json.num 1)]) (Json.obj []) 100 (-10)
      "2024-05-01T00:00:00.000Z").1 (by decide)).1

/-- Claim C7: a record-count response without a usable numeric nbHits
yields count 0, and a log-fetch response whose logs member is absent or
not an array yields the empty batch — safe defaults, not errors. -/
theorem c7_safe_defaults (response : Json) :
    (response.find "nbHits" = none → AlgoliaClient.total_records response = 0) ∧
    (∀ v, response.find "nbHits" = some v → v.as_u64 = none →
      AlgoliaClient.total_records response = 0) ∧
    (response.find "logs" = none → AlgoliaClient.get_logs response = some []) ∧
    (∀ v, response.find "logs" = some v → v.is_array = false →
      AlgoliaClient.get_logs response = some []) := by
  refine ⟨fun h => ?_, fun v h hv => ?_, fun h => ?_, fun v h hv => ?_⟩
  · simp [AlgoliaClient.total_records, h]
  · simp [AlgoliaClient.total_records, h, hv]
  · simp [AlgoliaClient.get_logs, h]
  · unfold AlgoliaClient.get_logs
    rw [h]
    cases v with
    | arr xs => exact absurd hv (by simp [Json.is_array])
    | null => rfl
    | bool b => rfl
    | num n => rfl
    | str s => rfl
    | obj kvs => rfl

/-- Concrete instance of C7: nbHits a string and logs a number fall back
to count 0 and the empty batch. -/
theorem c7_safe_defaults_witness :
    AlgoliaClient.total_records
        (Json.obj [("nbHits", Json.str "oops"), ("logs", Json.num 7)]) = 0 ∧
    AlgoliaClient.get_logs
        (Json.obj [("nbHits", Json.str "oops"), ("logs", Json.num 7)]) = some [] :=
  ⟨(c7_safe_defaults (Json.obj [("nbHits", Json.str "oops"), ("logs", Json.num 7)])).2.1
      (Json.str "oops") rfl rfl,
   (c7_safe_defaults (Json.obj [("nbHits", Json.str "oops"), ("logs", Json.num 7)])).2.2.2
      (Json.num 7) rfl rfl⟩

/-! ### Claim C3: entries without a timestamp -/

theorem from_json_eq_none (entry : Json)
    (hts : (entry.index "timestamp").as_str = none) :
    AlgoliaLog.from_json entry = none := by
  unfold AlgoliaLog.from_json
  rw [hts]

theorem parse_logs_eq_none (logs : List Json) (entry : Json)
    (hmem : entry ∈ logs) (hbad : AlgoliaLog.from_json entry = none) :
    parse_logs logs = none := by
  induction logs with
  | nil => cases hmem
  | cons j rest ih =>
    rcases List.mem_cons.mp hmem with h | h
    · subst h
      simp [parse_logs, hbad]
    · unfold parse_logs
      rw [ih h]
      cases AlgoliaLog.from_json j <;> rfl

/-- A well-formed log entry used by the C3 counterexample batch. -/
def goodEntry : Json :=
  Json.obj [("timestamp", Json.str "2024-05-01T00:00:00.000Z"),
            ("method", Json.str "POST")]

/-- A log entry with no timestamp member, used by the C3 counterexample. -/
def badEntry : Json := Json.obj [("method", Json.str "POST")]

/-- A log-fetch response whose batch of two entries contains one entry
without a timestamp. -/
def mixedResponse : Json := Json.obj [("logs", Json.arr [goodEntry, badEntry])]

/-- Counterexample to claim C3 as stated: on a batch of two entries, one
of them without a timestamp, the source's `unwrap` in
`AlgoliaLog::from_json` panics (modelled as `none`), so the run emits no
output at all rather than one line fewer than the batch size. -/
theorem c3_counterexample :
    print_algolia_logs_response mixedResponse "0000-00-00T00:00:00.000Z" = none ∧
    (print_algolia_logs_response mixedResponse "0000-00-00T00:00:00.000Z").map
      (fun r => r.1.length) ≠ some 1 := by
  decide

/-- Claim C3 (amended): a fetched log entry whose timestamp field is
missing (or not a string) makes `from_json` panic, which is fatal to the
whole batch: any batch containing such an entry produces no output lines
at all. -/
theorem c3_missing_timestamp_is_fatal (response : Json) (logs : List Json)
    (entry : Json) (wm : String)
    (hfind : response.find "logs" = some (Json.arr logs))
    (hmem : entry ∈ logs)
    (hts : (entry.index "timestamp").as_str = none) :
    print_algolia_logs_response response wm = none := by
  unfold print_algolia_logs_response AlgoliaClient.get_logs
  rw [hfind]
  show Option.map (fun logs => print_algolia_logs logs wm) (parse_logs logs) = none
  rw [parse_logs_eq_none logs entry hmem (from_json_eq_none entry hts)]
  rfl

/-- Concrete instance of the amended C3: the two-entry batch with one
missing timestamp aborts whatever the watermark. -/
theorem c3_missing_timestamp_is_fatal_witness :
    print_algolia_logs_response mixedResponse "2024-01-01T00:00:00.000Z" = none :=
  c3_missing_timestamp_is_fatal mixedResponse [goodEntry, badEntry] badEntry
    "2024-01-01T00:00:00.000Z" rfl (List.Mem.tail _ (List.Mem.head _)) rfl

/-! ### Claim C6: the method-tracking classification mode -/

/-- Modelled from the spec: the repository's second, method-tracking
near-duplicate of the pipeline is not under src/ (the spec counts two
implementations of the core; only the string-timestamp variant ships
there).  A record of that variant carries the HTTP method of the logged
operation alongside the timestamp and serialized payload. -/
structure MethodLog where
  timestamp : String
  method : String
  payload : String
deriving DecidableEq

/-- Modelled from the spec: a "read" record is one whose HTTP method is
the read verb GET; every other method is "mutating". -/
def is_read (method : String) : Bool :=
  method == "GET"

/-- Modelled from the spec: the "delete" classification is a substring
match for the delete marker on the serialized payload. -/
def contains_delete (payload : String) : Bool :=
  decide (List.IsInfix "delete".toList payload.toList)

/-- Modelled from the spec: classification of one retained record — read
records are dropped, mutating records are emitted with a DELETE: prefix
when the payload contains the delete marker and an UPDATE: prefix
otherwise. -/
def classify_line (record : MethodLog) : Option String :=
  if is_read record.method then none
  else if contains_delete record.payload then some ("DELETE:" ++ record.payload)
  else some ("UPDATE:" ++ record.payload)

/-- Modelled from the spec: the method-tracking pipeline — filter to
records strictly newer than the watermark, classify them in fetch order,
and advance the watermark exactly as the shipped variant does. -/
def print_method_logs (logs : List MethodLog) (wm : String) :
    List String × String :=
  ((logs.filter (fun l => decide (wm < l.timestamp))).filterMap classify_line,
   logs.foldl (fun w l => if w < l.timestamp then l.timestamp else w) wm)

theorem filterMap_classify_eq (logs : List MethodLog) :
    logs.filterMap classify_line =
      (logs.filter (fun l => !(is_read l.method))).map
        (fun l => (if contains_delete l.payload then "DELETE:" else "UPDATE:") ++
          l.payload) := by
  induction logs with
  | nil => rfl
  | cons l ls ih =>
    by_cases hr : is_read l.method
    · simp [List.filterMap_cons, List.filter_cons, classify_line, hr, ih]
    · by_cases hd : contains_delete l.payload
      · simp [List.filterMap_cons, List.filter_cons, classify_line, hr, hd, ih]
      · simp [List.filterMap_cons, List.filter_cons, classify_line, hr, hd, ih]

/-- Claim C6 (spec-modelled): in the method-tracking mode, the emitted
lines are exactly the retained mutating records in fetch order, each
prefixed DELETE: when its payload contains the delete marker and UPDATE:
otherwise; retained read records are never emitted. -/
theorem c6_classification (logs : List MethodLog) (wm : String) :
    (print_method_logs logs wm).1 =
      ((logs.filter (fun l => decide (wm < l.timestamp))).filter
          (fun l => !(is_read l.method))).map
        (fun l => (if contains_delete l.payload then "DELETE:" else "UPDATE:") ++
          l.payload) := by
  unfold print_method_logs
  exact filterMap_classify_eq _

end AlgoliaMonitor
